import Mathlib

/-!
Shallow embedding of the Easy-PDF editor core (App.tsx, components/Dashboard.tsx
with its embedded `usePDFStore` hook, the `Editor` component, AnnotationLayer.tsx
and PageManager.tsx), covering the page/record store operations, the pointer
interaction handlers, and the two export pipelines (`handleSavePDF` in App.tsx
and `exportPDF` in `usePDFStore`).

Numbers that the source stores as JS numbers (percent coordinates, sizes,
opacities) are modelled as rationals; page rotations are integers.  JS `||`
defaulting on numeric fields (where `0` is falsy) and JS truthiness of optional
strings are modelled explicitly.  Calls into external libraries (pdf-lib
embedding/drawing, the off-screen rasterizer, DOM HTML stripping) are modelled
by oracles passed in as parameters; the control flow around them is translated
from the source.
-/

namespace EasyPDF

/-- The `Annotation.type` union from types.ts, plus the `latex` kind that the
`Editor`/`usePDFStore` generation of the code uses. -/
inductive AnnType
  | text
  | rect
  | highlight
  | freehand
  | comment
  | ocr_text
  | image
  | latex
  deriving DecidableEq

/-- The `Annotation` record from types.ts (named `Ann` here).  Optional fields
are `Option`; `points` is the freehand sample list. -/
structure Ann where
  id : String
  pageIndex : Nat
  type : AnnType
  x : ℚ
  y : ℚ
  width : Option ℚ := none
  height : Option ℚ := none
  content : Option String := none
  color : String
  points : Option (List (ℚ × ℚ)) := none
  fontSize : Option ℚ := none
  strokeWidth : Option ℚ := none
  opacity : Option ℚ := none
  fill : Option String := none
  imageData : Option String := none
  vertical : Bool := false
  deriving DecidableEq

/-- The `PDFPageData` record from types.ts. -/
structure PDFPageData where
  id : String
  originalIndex : Nat
  rotation : Int
  deriving DecidableEq

/-- The page list plus the record list: the editable document state. -/
structure DocState where
  pages : List PDFPageData
  anns : List Ann
  deriving DecidableEq

/-- JS `v || d` for an optional numeric property: `undefined` and `0` are falsy
and fall back to the default. -/
def jsOrQ (v : Option ℚ) (d : ℚ) : ℚ :=
  match v with
  | none => d
  | some q => if q = 0 then d else q

/-- JS truthiness of an optional string property: `undefined` and `""` are
falsy, every other string is truthy. -/
def jsTruthy (s : Option String) : Bool :=
  match s with
  | none => false
  | some str => str != ""

/-! ## Store operations (usePDFStore in Dashboard.tsx, and App.tsx handlers) -/

/-- The page-list part of a page move: `splice` the page out of its old
position and `splice` it back in at the target position (shared by
`usePDFStore.movePage` and the page part of App.tsx `handleDrop`). -/
def movePageList {α : Type} (dragIndex hoverIndex : Nat) (l : List α) : List α :=
  match l[dragIndex]? with
  | none => l
  | some moved => (l.eraseIdx dragIndex).insertIdx hoverIndex moved

/-- `usePDFStore.movePage`: reorders the page list only.  (It does not touch
the record list.) -/
def storeMovePage (dragIndex hoverIndex : Nat) (st : DocState) : DocState :=
  { st with pages := movePageList dragIndex hoverIndex st.pages }

/-- The per-record `pageIndex` shift performed by App.tsx `handleDrop` when a
page is dragged from `dragged` to `target`. -/
def handleDropAnnShift (dragged target : Nat) (a : Ann) : Ann :=
  let newIndex :=
    if a.pageIndex = dragged then target
    else if dragged < target then
      if dragged < a.pageIndex ∧ a.pageIndex ≤ target then a.pageIndex - 1 else a.pageIndex
    else if target < dragged then
      if target ≤ a.pageIndex ∧ a.pageIndex < dragged then a.pageIndex + 1 else a.pageIndex
    else a.pageIndex
  { a with pageIndex := newIndex }

/-- App.tsx `handleDrop`: returns unchanged when source and target coincide,
otherwise moves the page and shifts every record's `pageIndex`. -/
def handleDrop (dragged target : Nat) (st : DocState) : DocState :=
  if dragged = target then st
  else
    { pages := movePageList dragged target st.pages
      anns := st.anns.map (handleDropAnnShift dragged target) }

/-- The record-list part of `usePDFStore.deletePage`: drop the records of the
deleted page, then decrement the `pageIndex` of records on later pages. -/
def storeDeletePageAnns (pageIndex : Nat) (anns : List Ann) : List Ann :=
  (anns.filter (fun a => a.pageIndex ≠ pageIndex)).map
    (fun a => if pageIndex < a.pageIndex then { a with pageIndex := a.pageIndex - 1 } else a)

/-- `usePDFStore.deletePage`: removes the page at the index (a filter on the
position) and re-indexes the records.  There is no guard against deleting the
only remaining page. -/
def storeDeletePage (pageIndex : Nat) (st : DocState) : DocState :=
  { pages := st.pages.eraseIdx pageIndex
    anns := storeDeletePageAnns pageIndex st.anns }

/-- App.tsx `handleDeletePage`: rejects the delete when at most one page is
left or the index is out of range, asks for confirmation, and otherwise removes
the page and re-indexes the records exactly like the store operation. -/
def handleDeletePage (st : DocState) (selectedPageIndex : Nat) (confirmed : Bool) : DocState :=
  if st.pages.length ≤ 1 then st
  else if st.pages.length ≤ selectedPageIndex then st
  else if ¬ confirmed then st
  else
    { pages := st.pages.eraseIdx selectedPageIndex
      anns := storeDeletePageAnns selectedPageIndex st.anns }

/-- Rotation direction for `handleRotatePage` / `updatePageRotation`. -/
inductive RotDir
  | left
  | right
  deriving DecidableEq

/-- The signed 90-degree delta of a rotation direction. -/
def rotDelta (d : RotDir) : Int :=
  match d with
  | .left => -90
  | .right => 90

/-- One application of `updatePageRotation` (usePDFStore) / `handleRotatePage`
(App.tsx) to a stored rotation value: add the delta, take the JS `%` (truncated
remainder) by 360, and add 360 when the result is negative. -/
def updatePageRotation1 (d : RotDir) (r : Int) : Int :=
  let newRot := (r + rotDelta d).tmod 360
  if newRot < 0 then newRot + 360 else newRot

/-! ## Interaction handlers (App.tsx and the Editor component) -/

/-- A geometry quadruple (x, y, width, height) in percent space. -/
structure RectQ where
  x : ℚ
  y : ℚ
  w : ℚ
  h : ℚ
  deriving DecidableEq

/-- The four corner resize handles rendered by AnnotationLayer.tsx; the handle
string passed to the mouse handlers is one of "nw", "ne", "sw", "se". -/
inductive Handle
  | nw
  | ne
  | sw
  | se
  deriving DecidableEq

/-- `handle.includes('n')` for the four corner handle strings. -/
def Handle.hasN : Handle → Bool
  | .nw => true
  | .ne => true
  | _ => false

/-- `handle.includes('s')` for the four corner handle strings. -/
def Handle.hasS : Handle → Bool
  | .sw => true
  | .se => true
  | _ => false

/-- `handle.includes('w')` for the four corner handle strings. -/
def Handle.hasW : Handle → Bool
  | .nw => true
  | .sw => true
  | _ => false

/-- `handle.includes('e')` for the four corner handle strings. -/
def Handle.hasE : Handle → Bool
  | .ne => true
  | .se => true
  | _ => false

/-- The resizing case of App.tsx `handlePageMouseMove`: starting from the
rectangle captured at gesture start and the cumulative pointer delta, each
matching edge updates size (clamped at 1) and, for north/west, position. -/
def resizeUpdate (handle : Handle) (init : RectQ) (dx dy : ℚ) : RectQ :=
  let newX := init.x
  let newY := init.y
  let newW := if handle.hasE then max 1 (init.w + dx) else init.w
  let newH := if handle.hasS then max 1 (init.h + dy) else init.h
  let pw := if handle.hasW then (max 1 (init.w - dx), init.x + dx) else (newW, newX)
  let ph := if handle.hasN then (max 1 (init.h - dy), init.y + dy) else (newH, newY)
  ⟨pw.2, ph.2, pw.1, ph.1⟩

/-- The resizing case of the Editor component's `handlePageMouseMove`: computes
the tentative rectangle, then commits the horizontal update only when the new
width exceeds 1 and the vertical update only when the new height exceeds 1. -/
def editorResizeUpdate (handle : Handle) (init : RectQ) (dx dy : ℚ) : RectQ :=
  let newX := if handle.hasW then init.x + dx else init.x
  let newW := if handle.hasW then init.w - dx else if handle.hasE then init.w + dx else init.w
  let newY := if handle.hasN then init.y + dy else init.y
  let newH := if handle.hasN then init.h - dy else if handle.hasS then init.h + dy else init.h
  let r1 := if 1 < newW then { init with x := newX, w := newW } else init
  if 1 < newH then { r1 with y := newY, h := newH } else r1

/-- The creating case of App.tsx `handlePageMouseMove`: the normalized bounding
rectangle of the gesture start point and the current point. -/
def creatingRect (startC current : ℚ × ℚ) : RectQ :=
  ⟨min current.1 startC.1, min current.2 startC.2,
    |current.1 - startC.1|, |current.2 - startC.2|⟩

/-- The moving case of App.tsx `handlePageMouseMove`: position at gesture start
plus the cumulative pointer delta; only `x` and `y` change. -/
def moveUpdate (a : Ann) (dx dy : ℚ) : Ann :=
  { a with x := a.x + dx, y := a.y + dy }

/-- The `activeTool` union of the App.tsx editor toolbar. -/
inductive EditTool
  | text
  | rect
  | highlight
  | comment
  | freehand
  | whiteout
  deriving DecidableEq

/-- The interaction state machine's state tag (App.tsx `interactionState.type`). -/
inductive InterKind
  | idle
  | drawing
  | creating
  | moving
  | resizing
  deriving DecidableEq

/-- The record inserted by App.tsx `handlePageMouseDown` when a creation tool is
active: zero size at the pointer position, with per-tool content, color,
opacity, and the whiteout fill override. -/
def mkToolAnn (tool : EditTool) (newId : String) (pageIdx : Nat) (coords : ℚ × ℚ) : Ann :=
  let base : Ann :=
    { id := newId
      pageIndex := pageIdx
      type := if tool = .whiteout then .rect else
        match tool with
        | .text => .text
        | .rect => .rect
        | .highlight => .highlight
        | .comment => .comment
        | .freehand => .freehand
        | .whiteout => .rect
      x := coords.1
      y := coords.2
      width := some 0
      height := some 0
      content := if tool = .text then some ("") else if tool = .comment then some ("") else none
      color := if tool = .highlight then "#FFFF00" else if tool = .text then "#000000"
        else if tool = .comment then "#FDD663" else "#D0BCFF"
      fontSize := some 16
      strokeWidth := some 2
      opacity := if tool = .highlight then some (2/5) else some 1 }
  if tool = .whiteout then { base with fill := some ("#FFFFFF"), color := "#FFFFFF", opacity := some 1 }
  else base

/-- Result of the active-tool branch of App.tsx `handlePageMouseDown`. -/
structure ToolDownResult where
  anns : List Ann
  selectedId : Option String
  activeTool : Option EditTool
  targetId : Option String
  inter : InterKind

/-- The active-tool branch of App.tsx `handlePageMouseDown` (pointer-down on
empty canvas with a tool selected): freehand starts a drawing gesture; a
comment is committed immediately with zero size, selected, and the tool is
cleared without entering a creation gesture; every other tool inserts the new
record and enters the creating gesture. -/
def handleToolMouseDown (tool : EditTool) (newId : String) (pageIdx : Nat) (coords : ℚ × ℚ)
    (anns : List Ann) (sel : Option String) : ToolDownResult :=
  if tool = .freehand then
    { anns := anns, selectedId := sel, activeTool := some tool, targetId := none, inter := .drawing }
  else
    let newAnn := mkToolAnn tool newId pageIdx coords
    if tool = .comment then
      { anns := anns ++ [{ newAnn with width := some 0, height := some 0 }]
        selectedId := some newId, activeTool := none, targetId := none, inter := .idle }
    else
      { anns := anns ++ [newAnn]
        selectedId := some newId, activeTool := some tool, targetId := some newId, inter := .creating }

/-- The freehand record committed by App.tsx `handleGlobalMouseUp` after a
drawing gesture with more than two samples. -/
def mkFreehandAnn (newId : String) (pageIdx : Nat) (path : List (ℚ × ℚ)) : Ann :=
  { id := newId, pageIndex := pageIdx, type := .freehand, x := 0, y := 0
    points := some path, color := "#000000", strokeWidth := some 4, opacity := some 1 }

/-- The record-list effect of App.tsx `handleGlobalMouseUp`: a drawing gesture
with more than two samples commits a freehand record; a creating gesture whose
target ended with width or height exactly 0 is promoted to a default size
(20 x 5 for text, 15 x 5 otherwise); every other state leaves the records
unchanged. -/
def handleGlobalMouseUpAnns (inter : InterKind) (pageIdx : Nat) (targetId : Option String)
    (currentPath : List (ℚ × ℚ)) (newId : String) (anns : List Ann) : List Ann :=
  match inter with
  | .drawing =>
      if 2 < currentPath.length then anns ++ [mkFreehandAnn newId pageIdx currentPath] else anns
  | .creating =>
      match targetId with
      | none => anns
      | some tid =>
          match anns.find? (fun a => a.id = tid) with
          | none => anns
          | some created =>
              if created.type = .text ∧ (created.width = some 0 ∨ created.height = some 0) then
                anns.map (fun a => if a.id = tid then { a with width := some 20, height := some 5 } else a)
              else if created.width = some 0 ∨ created.height = some 0 then
                anns.map (fun a => if a.id = tid then { a with width := some 15, height := some 5 } else a)
              else anns
  | _ => anns

/-- A whole drag-to-create gesture in App.tsx: pointer-down with the tool
active inserts the zero-sized record, each pointer-move overwrites its
rectangle with the bounding box of start and current point, and pointer-up
applies the promotion.  Returns the resulting record list. -/
def runCreationGesture (tool : EditTool) (newId : String) (pageIdx : Nat) (startC : ℚ × ℚ)
    (moves : List (ℚ × ℚ)) : List Ann :=
  let r0 := handleToolMouseDown tool newId pageIdx startC [] none
  let moved := moves.foldl
    (fun acc c =>
      acc.map (fun a =>
        if a.id = newId then
          let r := creatingRect startC c
          { a with x := r.x, y := r.y, width := some r.w, height := some r.h }
        else a))
    r0.anns
  handleGlobalMouseUpAnns r0.inter pageIdx r0.targetId [] newId moved

/-! ## Export pipelines (App.tsx handleSavePDF and usePDFStore exportPDF) -/

/-- A pdf-lib color argument: either the conversion of a hex string via
`hexToRgb`, or one of the literal `rgb(...)` constants in the source. -/
inductive ColorV
  | hex (s : String)
  | rgbc (r g b : ℚ)
  deriving DecidableEq

/-- One drawing call issued against an output page. -/
inductive DrawOp
  | drawImage (data : String) (x y w h : ℚ)
  | drawText (content : String) (x y size : ℚ) (color : ColorV)
  | drawRect (x y w h : ℚ) (color : Option ColorV) (borderColor : Option ColorV)
      (borderWidth : ℚ) (opacity : ℚ)
  | drawSvgPath (pts : List (ℚ × ℚ)) (borderColor : ColorV) (borderWidth : ℚ) (opacity : ℚ)
  | drawLine (p1 p2 : ℚ × ℚ) (thickness : ℚ) (color : ColorV) (opacity : ℚ)
  deriving DecidableEq

/-- Whether a rectangle op carries a fill color. -/
def DrawOp.hasFill : DrawOp → Bool
  | .drawRect _ _ _ _ c _ _ _ => c.isSome
  | _ => false

/-- Whether a rectangle op draws a border (a border color with nonzero width). -/
def DrawOp.hasBorder : DrawOp → Bool
  | .drawRect _ _ _ _ _ bc bw _ => bc.isSome && bw != 0
  | _ => false

/-- The opacity of a rectangle op (1 for every other op). -/
def DrawOp.rectOpacity : DrawOp → ℚ
  | .drawRect _ _ _ _ _ _ _ o => o
  | _ => 1

/-- External collaborators of the export pipelines: the off-screen rasterizer
(`rasterizeAnnotation`, which resolves a PNG data URL or null), the DOM-based
HTML stripping used for comment excerpts, and the output page size. -/
structure RenderEnv where
  raster : Ann → Option String
  strip : String → String
  pw : ℚ
  ph : ℚ

/-- The drawing calls App.tsx `handleSavePDF` issues for one record (the
`ocr_text` skip lives in the page loop, before this dispatch). -/
def saveAnnOps (env : RenderEnv) (a : Ann) : List DrawOp :=
  let x := a.x / 100 * env.pw
  let w := (a.width.getD 0) / 100 * env.pw
  let h := (a.height.getD 0) / 100 * env.ph
  match a.type with
  | .image =>
      match a.imageData with
      | some dat => [.drawImage dat x (env.ph - (a.y / 100) * env.ph - h) w h]
      | none => []
  | .text =>
      let fontSize := jsOrQ a.fontSize 16
      [.drawText (a.content.getD ("")) x (env.ph - (a.y / 100) * env.ph - fontSize) fontSize
        (.hex a.color)]
  | .highlight =>
      let y := env.ph - (a.y / 100) * env.ph - h
      [.drawRect x y w h (some (.hex a.color)) none 0 (jsOrQ a.opacity (2/5))]
  | .rect =>
      let y := env.ph - (a.y / 100) * env.ph - h
      if jsTruthy a.fill then
        [.drawRect x y w h (some (.hex (a.fill.getD ("")))) none 0 1]
      else
        [.drawRect x y w h none (some (.hex a.color)) (jsOrQ a.strokeWidth 2) 1]
  | .freehand =>
      match a.points with
      | some pts =>
          if 0 < pts.length then
            [.drawSvgPath (pts.map (fun p => ((p.1 / 100) * env.pw, env.ph - (p.2 / 100) * env.ph)))
              (.hex a.color)
              (match a.strokeWidth with
                | some s => if s = 0 then 2 else s / 2
                | none => 2)
              (jsOrQ a.opacity 1)]
          else []
      | none => []
  | .comment =>
      let iconSize : ℚ := 24
      let y := env.ph - (a.y / 100) * env.ph - iconSize
      [.drawRect x y iconSize iconSize (some (.rgbc (99/100) (84/100) (39/100)))
          (some (.rgbc (11/100) (1/10) (9/100))) 1 1,
        .drawText ("!") (x + 10) (y + 6) 14 (.rgbc (11/100) (1/10) (9/100))]
      ++ (match a.content with
        | some ct =>
            if ct != "" then
              let textWidth : ℚ := min 200 (ct.length * 6)
              [.drawRect (x + iconSize + 2) (y + iconSize - 24) textWidth 24
                  (some (.rgbc 1 1 1)) (some (.rgbc (4/5) (4/5) (4/5))) 1 1,
                .drawText (ct.take 30) (x + iconSize + 6) (y + iconSize - 24 + 6) 10 (.rgbc 0 0 0)]
            else []
        | none => [])
  | .ocr_text => []
  | .latex => []

/-- App.tsx `handleSavePDF` page loop over one page's records: `ocr_text`
records are skipped by the `continue`; every other record's drawing calls are
issued with no per-record error handler, so a throw (modelled by the `renderOk`
oracle) aborts the whole save. -/
def savePageAnnsOps (renderOk : Ann → Bool) (env : RenderEnv) :
    List Ann → Except Unit (List DrawOp)
  | [] => .ok []
  | a :: rest =>
      if a.type = .ocr_text then savePageAnnsOps renderOk env rest
      else if renderOk a then
        match savePageAnnsOps renderOk env rest with
        | .ok ops => .ok (saveAnnOps env a ++ ops)
        | .error e => .error e
      else .error ()

/-- The page recursion of `handleSavePDF`, carrying the visual index. -/
def savePagesGo (renderOk : Ann → Bool) (env : RenderEnv) (anns : List Ann) :
    Nat → List PDFPageData → Except Unit (List (PDFPageData × List DrawOp))
  | _, [] => .ok []
  | i, pg :: rest =>
      match savePageAnnsOps renderOk env (anns.filter (fun a => a.pageIndex = i)) with
      | .error e => .error e
      | .ok ops =>
          match savePagesGo renderOk env anns (i + 1) rest with
          | .error e => .error e
          | .ok outs => .ok ((pg, ops) :: outs)

/-- App.tsx `handleSavePDF`: copies the pages in visual order and draws every
page's records; the single surrounding try/catch means any record failure
yields no output document at all. -/
def handleSavePDFModel (renderOk : Ann → Bool) (env : RenderEnv)
    (pages : List PDFPageData) (anns : List Ann) : Except Unit (List (PDFPageData × List DrawOp)) :=
  savePagesGo renderOk env anns 0 pages

/-- The drawing calls `usePDFStore.exportPDF` issues for one record.  Unlike
`handleSavePDF`, the text branch also covers `ocr_text` and `latex` (their
content is rasterized off screen and embedded as an image, over an optional
fill background), the rectangle branch always gives `rect` records a border,
and freehand strokes become per-segment lines. -/
def exportAnnOps (env : RenderEnv) (a : Ann) : List DrawOp :=
  let x := (a.x / 100) * env.pw
  let w := (jsOrQ a.width 0) / 100 * env.pw
  let h := (jsOrQ a.height 0) / 100 * env.ph
  let y := env.ph - (a.y / 100) * env.ph - h
  match a.type with
  | .text | .ocr_text | .latex =>
      (if jsTruthy a.fill ∧ a.fill ≠ some ("transparent") then
          [.drawRect x y w h (some (.hex (a.fill.getD ("")))) none 0 1]
        else [])
      ++ (match env.raster a with
        | some img => [.drawImage img x y w h]
        | none => [])
  | .rect | .highlight =>
      let fillColor : Option ColorV :=
        if a.type = .highlight then some (.hex a.color)
        else if jsTruthy a.fill ∧ a.fill ≠ some ("transparent") then some (.hex (a.fill.getD ("")))
        else none
      [.drawRect x y w h fillColor
        (if a.type = .rect then some (.hex a.color) else none)
        (if a.type = .rect then jsOrQ a.strokeWidth 2 else 0)
        (jsOrQ a.opacity 1)]
  | .freehand =>
      match a.points with
      | some pts =>
          if 1 < pts.length then
            let mapped := pts.map (fun p => ((p.1 / 100) * env.pw, env.ph - (p.2 / 100) * env.ph))
            (mapped.zip mapped.tail).map
              (fun pr => .drawLine pr.1 pr.2 (jsOrQ a.strokeWidth 4) (.hex a.color) (jsOrQ a.opacity 1))
          else []
      | none => []
  | .image =>
      match a.imageData with
      | some dat =>
          if dat.startsWith ("data:image/png") then [.drawImage dat x y w h]
          else if dat.startsWith ("data:image/jpeg") ∨ dat.startsWith ("data:image/jpg") then
            [.drawImage dat x y w h]
          else []
      | none => []
  | .comment =>
      let markerSize : ℚ := 20
      [.drawRect ((a.x / 100) * env.pw) (env.ph - (a.y / 100) * env.ph - markerSize)
          markerSize markerSize (some (.hex a.color)) (some (.rgbc 0 0 0)) 1 1,
        .drawText ("!") ((a.x / 100) * env.pw + 7) (env.ph - (a.y / 100) * env.ph - 15) 12 (.rgbc 0 0 0)]
      ++ (match a.content with
        | some ct =>
            if ct != "" then
              [.drawText (env.strip ct) ((a.x / 100) * env.pw + markerSize + 5)
                (env.ph - (a.y / 100) * env.ph - 15) 10 (.rgbc 0 0 0)]
            else []
        | none => [])

/-- `exportPDF` record loop over one page: each record is rendered inside its
own try/catch, so a failing record (oracle `renderOk`) is logged and skipped. -/
def exportPageAnnOps (renderOk : Ann → Bool) (env : RenderEnv) (l : List Ann) : List DrawOp :=
  l.flatMap (fun a => if renderOk a then exportAnnOps env a else [])

/-- The page recursion of `exportPDF`, carrying the visual index. -/
def exportPagesGo (renderOk : Ann → Bool) (env : RenderEnv) (anns : List Ann) :
    Nat → List PDFPageData → List (PDFPageData × List DrawOp)
  | _, [] => []
  | i, pg :: rest =>
      (pg, exportPageAnnOps renderOk env (anns.filter (fun a => a.pageIndex = i)))
        :: exportPagesGo renderOk env anns (i + 1) rest

/-- `usePDFStore.exportPDF`: copies the pages in visual order and draws every
page's records, recovering per record. -/
def exportPDFModel (renderOk : Ann → Bool) (env : RenderEnv)
    (pages : List PDFPageData) (anns : List Ann) : List (PDFPageData × List DrawOp) :=
  exportPagesGo renderOk env anns 0 pages

/-- The on-screen data a freehand record contributes to the AnnotationLayer SVG
layer: the path is built from `points` alone, stroked with the record's color,
scaled stroke width, and opacity; `x` and `y` are not read. -/
structure FreehandView where
  pathPoints : List (ℚ × ℚ)
  stroke : String
  strokeWidth : ℚ
  opacity : ℚ
  deriving DecidableEq

/-- The AnnotationLayer.tsx freehand path element for a record. -/
def freehandView (scale : ℚ) (a : Ann) : FreehandView :=
  { pathPoints := a.points.getD []
    stroke := a.color
    strokeWidth := (jsOrQ a.strokeWidth 4) * scale
    opacity := jsOrQ a.opacity 1 }

/-! ## Concrete fixtures used by the claim-level evaluations -/

/-- A first test page. -/
def pageA : PDFPageData := ⟨"page-A", 1, 0⟩

/-- A second test page. -/
def pageB : PDFPageData := ⟨"page-B", 2, 0⟩

/-- A plain highlight record on page 0. -/
def highlightAnn0 : Ann :=
  { id := "hl-1", pageIndex := 0, type := .highlight, x := 10, y := 10,
    width := some 5, height := some 5, color := "#FFFF00", opacity := none }

/-- An image record whose payload makes the external embed call throw. -/
def badImageAnn : Ann :=
  { id := "bad", pageIndex := 0, type := .image, x := 0, y := 0,
    width := some 10, height := some 10, color := "transparent",
    imageData := some ("data:image/png;base64,corrupt") }

/-- An `ocr_text` record as produced by the OCR pass: transparent, opacity 0,
holding one recognized word. -/
def ocrWordAnn : Ann :=
  { id := "ocr-1", pageIndex := 0, type := .ocr_text, x := 10, y := 10,
    width := some 20, height := some 5, content := some ("word"),
    color := "transparent", fontSize := some 6, opacity := some 0 }

/-- A whiteout record: a `rect` with a solid white fill. -/
def whiteoutAnn : Ann :=
  { id := "wo-1", pageIndex := 0, type := .rect, x := 10, y := 10,
    width := some 20, height := some 10, color := "#FFFFFF",
    opacity := some 1, strokeWidth := some 2, fill := some ("#FFFFFF") }

/-- A render environment where every external call succeeds. -/
def envOk : RenderEnv :=
  { raster := fun _ => some ("data:image/png;base64,raster"), strip := id, pw := 800, ph := 1000 }

/-- The failure oracle that makes exactly `badImageAnn` throw. -/
def renderOkExceptBad : Ann → Bool := fun a => a.id != "bad"

/-- The all-successes failure oracle. -/
def renderOkAll : Ann → Bool := fun _ => true

/-- A plain box record: a `rect` with no fill. -/
def borderRect : Ann :=
  { id := "br-1", pageIndex := 0, type := .rect, x := 10, y := 10,
    width := some 5, height := some 5, color := "#D0BCFF", strokeWidth := some 2 }

/-- A committed freehand record. -/
def freehandFix : Ann :=
  { id := "fh-1", pageIndex := 0, type := .freehand, x := 0, y := 0,
    points := some [(1, 1), (2, 2), (3, 3)], color := "#000000",
    strokeWidth := some 4, opacity := some 1 }

/-- Amended-claim description of the record list left behind by a one-move
drag-to-create gesture: the tool's new record carries the bounding rectangle of
start and release point, and its size is replaced by the defaults (20 x 5 for
text, 15 x 5 otherwise) exactly when the gesture width or height is exactly 0. -/
def creationOutcome (tool : EditTool) (newId : String) (pageIdx : Nat) (s c : ℚ × ℚ) : List Ann :=
  let a0 := mkToolAnn tool newId pageIdx s
  let r := creatingRect s c
  let wh : ℚ × ℚ :=
    if r.w = 0 ∨ r.h = 0 then (if a0.type = .text then (20, 5) else (15, 5))
    else (r.w, r.h)
  [{ a0 with x := r.x, y := r.y, width := some wh.1, height := some wh.2 }]

end EasyPDF

namespace EasyPDF

/-! ## Helper lemmas -/

theorem filter_map_eq_filterMap {α β : Type} (p : α → Bool) (f : α → β) (l : List α) :
    (l.filter p).map f = l.filterMap (fun a => if p a then some (f a) else none) := by
  induction l with
  | nil => rfl
  | cons a t ih =>
      by_cases h : p a <;> simp [List.filter_cons, List.filterMap_cons, h, ih]

theorem jsOrQ_ne_zero (v : Option ℚ) (d : ℚ) (hd : d ≠ 0) : jsOrQ v d ≠ 0 := by
  cases v with
  | none => exact hd
  | some q =>
      by_cases hq : q = 0 <;> simp [jsOrQ, hq, hd]

theorem storeDeletePageAnns_eq_filterMap (idx : Nat) (anns : List Ann) :
    storeDeletePageAnns idx anns
      = anns.filterMap (fun a =>
          if a.pageIndex = idx then none
          else if idx < a.pageIndex then some { a with pageIndex := a.pageIndex - 1 }
          else some a) := by
  induction anns with
  | nil => rfl
  | cons a t ih =>
      simp only [storeDeletePageAnns, ne_eq, decide_not, List.filter_cons,
        List.filterMap_cons] at ih ⊢
      by_cases h1 : a.pageIndex = idx
      · simp [h1, ih]
      · by_cases h2 : idx < a.pageIndex <;> simp [h1, h2, ih]

theorem tmod360_bounds (a : Int) : -360 < a.tmod 360 ∧ a.tmod 360 < 360 := by
  cases a with
  | ofNat m =>
      rw [show (Int.ofNat m).tmod 360 = Int.ofNat (m % 360) from rfl, Int.ofNat_eq_coe]
      omega
  | negSucc m =>
      rw [show (Int.negSucc m).tmod 360 = -(Int.ofNat ((m + 1) % 360)) from rfl,
        Int.ofNat_eq_coe]
      omega

theorem tmod360_of_neg (a : Int) (h0 : -360 < a) (h1 : a < 0) : a.tmod 360 = a := by
  cases a with
  | ofNat m =>
      simp only [Int.ofNat_eq_coe] at h1
      omega
  | negSucc m =>
      rw [show (Int.negSucc m).tmod 360 = -(Int.ofNat ((m + 1) % 360)) from rfl,
        Int.ofNat_eq_coe]
      simp only [Int.negSucc_eq] at h0 ⊢
      have hm : m + 1 < 360 := by omega
      rw [Nat.mod_eq_of_lt hm]
      omega

theorem updatePageRotation1_eq_emod (d : RotDir) (r : Int) (h0 : 0 ≤ r) (h1 : r < 360) :
    updatePageRotation1 d r = (r + rotDelta d + 360) % 360 := by
  cases d with
  | right =>
      simp only [updatePageRotation1, rotDelta]
      rw [Int.tmod_eq_emod (by omega) (by omega)]
      have hnn : 0 ≤ (r + 90) % 360 := Int.emod_nonneg _ (by omega)
      rw [if_neg (by omega)]
      omega
  | left =>
      simp only [updatePageRotation1, rotDelta]
      by_cases hr : 90 ≤ r
      · rw [Int.tmod_eq_emod (by omega) (by omega)]
        have hnn : 0 ≤ (r + -90) % 360 := Int.emod_nonneg _ (by omega)
        rw [if_neg (by omega)]
        omega
      · rw [tmod360_of_neg _ (by omega) (by omega), if_pos (by omega)]
        have h360 : 0 ≤ r + -90 + 360 := by omega
        have hlt : r + -90 + 360 < 360 := by omega
        rw [Int.emod_eq_of_lt h360 hlt]

/-! ## Claim theorems -/

theorem insertIdx_getElem?_of_lt {α : Type} :
    ∀ (l : List α) (x : α) (n k : Nat), k < n → (l.insertIdx n x)[k]? = l[k]?
  | _, _, 0, k, h => absurd h (Nat.not_lt_zero k)
  | [], _, n + 1, k, _ => by simp [List.insertIdx_succ_nil]
  | a :: t, x, n + 1, 0, _ => by simp [List.insertIdx_succ_cons]
  | a :: t, x, n + 1, k + 1, h => by
      simp [List.insertIdx_succ_cons, insertIdx_getElem?_of_lt t x n k (by omega)]

theorem insertIdx_getElem?_self {α : Type} :
    ∀ (l : List α) (x : α) (n : Nat), n ≤ l.length → (l.insertIdx n x)[n]? = some x
  | l, x, 0, _ => by simp [List.insertIdx_zero]
  | [], x, n + 1, h => by simp at h
  | a :: t, x, n + 1, h => by
      simp only [List.insertIdx_succ_cons, List.getElem?_cons_succ]
      exact insertIdx_getElem?_self t x n (by simpa using h)

theorem insertIdx_getElem?_of_gt {α : Type} :
    ∀ (l : List α) (x : α) (n k : Nat), n < k → (l.insertIdx n x)[k]? = l[k - 1]?
  | l, x, 0, k, h => by
      obtain ⟨k', rfl⟩ : ∃ k', k = k' + 1 := ⟨k - 1, by omega⟩
      simp [List.insertIdx_zero]
  | [], x, n + 1, k, _ => by simp [List.insertIdx_succ_nil]
  | a :: t, x, n + 1, k, h => by
      obtain ⟨k', rfl⟩ : ∃ k', k = k' + 1 := ⟨k - 1, by omega⟩
      simp only [List.insertIdx_succ_cons, List.getElem?_cons_succ, Nat.add_sub_cancel]
      rw [insertIdx_getElem?_of_gt t x n k' (by omega)]
      obtain ⟨k'', rfl⟩ : ∃ k'', k' = k'' + 1 := ⟨k' - 1, by omega⟩
      simp

theorem movePageList_eq {α : Type} (l : List α) (d t : Nat) (m : α) (hm : l[d]? = some m) :
    movePageList d t l = (l.eraseIdx d).insertIdx t m := by
  unfold movePageList
  rw [hm]

theorem movePageList_length {α : Type} (l : List α) (d t : Nat)
    (hd : d < l.length) (ht : t < l.length) :
    (movePageList d t l).length = l.length := by
  obtain ⟨m, hm⟩ : ∃ m, l[d]? = some m := ⟨l[d], List.getElem?_eq_getElem hd⟩
  rw [movePageList_eq l d t m hm,
    List.length_insertIdx t _ (by rw [List.length_eraseIdx, if_pos hd]; omega),
    List.length_eraseIdx, if_pos hd]
  omega

theorem handleDropAnnShift_pageIndex (d t : Nat) (a : Ann) :
    (handleDropAnnShift d t a).pageIndex
      = (if a.pageIndex = d then t
        else if d < t then (if d < a.pageIndex ∧ a.pageIndex ≤ t then a.pageIndex - 1
          else a.pageIndex)
        else if t < d then (if t ≤ a.pageIndex ∧ a.pageIndex < d then a.pageIndex + 1
          else a.pageIndex)
        else a.pageIndex) := rfl

theorem handleDropAnnShift_self (d : Nat) (a : Ann) : handleDropAnnShift d d a = a := by
  unfold handleDropAnnShift
  by_cases h : a.pageIndex = d
  · rw [if_pos h, ← h]
  · rw [if_neg h, if_neg (lt_irrefl d), if_neg (lt_irrefl d)]

theorem movePageList_getElem? {α : Type} (l : List α) (d t j : Nat)
    (hd : d < l.length) (ht : t < l.length) (hj : j < l.length) (hdt : d ≠ t) :
    (if j = d then t
      else if d < t then (if d < j ∧ j ≤ t then j - 1 else j)
      else if t < d then (if t ≤ j ∧ j < d then j + 1 else j)
      else j) < l.length
    ∧ (movePageList d t l)[
        (if j = d then t
          else if d < t then (if d < j ∧ j ≤ t then j - 1 else j)
          else if t < d then (if t ≤ j ∧ j < d then j + 1 else j)
          else j)]? = l[j]? := by
  obtain ⟨m, hm⟩ : ∃ m, l[d]? = some m := ⟨l[d], List.getElem?_eq_getElem hd⟩
  have hel : (l.eraseIdx d).length = l.length - 1 := by
    rw [List.length_eraseIdx, if_pos hd]
  rw [movePageList_eq l d t m hm]
  split_ifs with h1 h2 h3 h4 h5
  · subst h1
    refine ⟨ht, ?_⟩
    rw [insertIdx_getElem?_self _ _ _ (by omega), hm]
  · refine ⟨by omega, ?_⟩
    rw [insertIdx_getElem?_of_lt _ _ _ _ (by omega), List.getElem?_eraseIdx,
      if_neg (by omega)]
    congr 1
    omega
  · refine ⟨hj, ?_⟩
    rcases Nat.lt_or_ge j d with hjd | hjd
    · rw [insertIdx_getElem?_of_lt _ _ _ _ (by omega), List.getElem?_eraseIdx, if_pos hjd]
    · rw [insertIdx_getElem?_of_gt _ _ _ _ (by omega), List.getElem?_eraseIdx,
        if_neg (by omega)]
      congr 1
      omega
  · refine ⟨by omega, ?_⟩
    rw [insertIdx_getElem?_of_gt _ _ _ _ (by omega), List.getElem?_eraseIdx,
      if_pos (by omega)]
    congr 1
  · refine ⟨hj, ?_⟩
    rcases Nat.lt_or_ge j t with hjt | hjt
    · rw [insertIdx_getElem?_of_lt _ _ _ _ (by omega), List.getElem?_eraseIdx,
        if_pos (by omega)]
    · rw [insertIdx_getElem?_of_gt _ _ _ _ (by omega), List.getElem?_eraseIdx,
        if_neg (by omega)]
      congr 1
      omega
  · exact absurd (by omega : d = t) hdt

/-- App.tsx `handleDrop` implements the page-move invariant the spec states:
the page count is unchanged, every record is shifted by `handleDropAnnShift`,
and each shifted record's `pageIndex` is in range and still addresses the very
page object it addressed before the move. -/
theorem handleDrop_preserves_anchor (st : DocState) (dragged target : Nat)
    (hd : dragged < st.pages.length) (ht : target < st.pages.length) :
    (handleDrop dragged target st).pages.length = st.pages.length
    ∧ (handleDrop dragged target st).anns = st.anns.map (handleDropAnnShift dragged target)
    ∧ ∀ a ∈ st.anns, a.pageIndex < st.pages.length →
        (handleDropAnnShift dragged target a).pageIndex < st.pages.length
        ∧ (handleDrop dragged target st).pages[(handleDropAnnShift dragged target a).pageIndex]?
            = st.pages[a.pageIndex]? := by
  by_cases hdt : dragged = target
  · subst hdt
    simp only [handleDrop, eq_self_iff_true, if_true]
    refine ⟨trivial, ?_, ?_⟩
    · rw [List.map_congr_left
        (fun a _ => (handleDropAnnShift_self dragged a).trans rfl), List.map_id']
    · intro a ha hj
      rw [handleDropAnnShift_self]
      exact ⟨hj, rfl⟩
  · have hpages : (handleDrop dragged target st).pages = movePageList dragged target st.pages := by
      simp [handleDrop, hdt]
    have hanns : (handleDrop dragged target st).anns
        = st.anns.map (handleDropAnnShift dragged target) := by
      simp [handleDrop, hdt]
    refine ⟨by rw [hpages, movePageList_length _ _ _ hd ht], hanns, ?_⟩
    intro a ha hj
    have key := movePageList_getElem? st.pages dragged target a.pageIndex hd ht hj hdt
    rw [handleDropAnnShift_pageIndex, hpages]
    exact key

theorem mkToolAnn_id (tool : EditTool) (newId : String) (pageIdx : Nat) (s : ℚ × ℚ) :
    (mkToolAnn tool newId pageIdx s).id = newId := by
  unfold mkToolAnn
  split <;> rfl

theorem mkToolAnn_width (tool : EditTool) (newId : String) (pageIdx : Nat) (s : ℚ × ℚ) :
    (mkToolAnn tool newId pageIdx s).width = some 0 := by
  unfold mkToolAnn
  split <;> rfl

theorem mkToolAnn_height (tool : EditTool) (newId : String) (pageIdx : Nat) (s : ℚ × ℚ) :
    (mkToolAnn tool newId pageIdx s).height = some 0 := by
  unfold mkToolAnn
  split <;> rfl

theorem mkToolAnn_x (tool : EditTool) (newId : String) (pageIdx : Nat) (s : ℚ × ℚ) :
    (mkToolAnn tool newId pageIdx s).x = s.1 := by
  unfold mkToolAnn
  split <;> rfl

theorem mkToolAnn_y (tool : EditTool) (newId : String) (pageIdx : Nat) (s : ℚ × ℚ) :
    (mkToolAnn tool newId pageIdx s).y = s.2 := by
  unfold mkToolAnn
  split <;> rfl

theorem exportPageAnnOps_filter (renderOk : Ann → Bool) (env : RenderEnv) (l : List Ann) :
    exportPageAnnOps renderOk env l = exportPageAnnOps renderOkAll env (l.filter renderOk) := by
  induction l with
  | nil => rfl
  | cons a t ih =>
      by_cases h : renderOk a <;>
        simp [exportPageAnnOps, List.filter_cons, h, renderOkAll] at ih ⊢ <;>
        rw [ih]

theorem exportPagesGo_length (renderOk : Ann → Bool) (env : RenderEnv) (anns : List Ann)
    (i : Nat) (pages : List PDFPageData) :
    (exportPagesGo renderOk env anns i pages).length = pages.length := by
  induction pages generalizing i with
  | nil => rfl
  | cons pg rest ih => simp [exportPagesGo, ih]

theorem exportPagesGo_filter (renderOk : Ann → Bool) (env : RenderEnv) (anns : List Ann)
    (i : Nat) (pages : List PDFPageData) :
    exportPagesGo renderOk env anns i pages
      = exportPagesGo renderOkAll env (anns.filter renderOk) i pages := by
  induction pages generalizing i with
  | nil => rfl
  | cons pg rest ih =>
      have harg : (anns.filter (fun a => a.pageIndex = i)).filter renderOk
          = (anns.filter renderOk).filter (fun a => a.pageIndex = i) := by
        rw [List.filter_filter, List.filter_filter]
        exact List.filter_congr (fun a _ => Bool.and_comm _ _)
      simp only [exportPagesGo, ih]
      rw [exportPageAnnOps_filter, harg]

theorem savePageAnnsOps_ocr_filter (renderOk : Ann → Bool) (env : RenderEnv) (l : List Ann) :
    savePageAnnsOps renderOk env l
      = savePageAnnsOps renderOk env (l.filter (fun a => a.type ≠ .ocr_text)) := by
  induction l with
  | nil => rfl
  | cons a t ih =>
      by_cases h : a.type = .ocr_text
      · simp [savePageAnnsOps, List.filter_cons, h, ih]
      · rw [show (a :: t).filter (fun x => x.type ≠ .ocr_text)
            = a :: t.filter (fun x => x.type ≠ .ocr_text) by simp [List.filter_cons, h]]
        simp only [savePageAnnsOps, if_neg h, ih]

theorem savePagesGo_ocr_filter (renderOk : Ann → Bool) (env : RenderEnv) (anns : List Ann)
    (i : Nat) (pages : List PDFPageData) :
    savePagesGo renderOk env anns i pages
      = savePagesGo renderOk env (anns.filter (fun a => a.type ≠ .ocr_text)) i pages := by
  induction pages generalizing i with
  | nil => rfl
  | cons pg rest ih =>
      have harg : (anns.filter (fun a => a.pageIndex = i)).filter (fun a => a.type ≠ .ocr_text)
          = (anns.filter (fun a => a.type ≠ .ocr_text)).filter (fun a => a.pageIndex = i) := by
        rw [List.filter_filter, List.filter_filter]
        exact List.filter_congr (fun a _ => Bool.and_comm _ _)
      simp only [savePagesGo, ih]
      rw [savePageAnnsOps_ocr_filter, harg]

/-- C1: every annotation keeps referencing the same visual page across page
moves and deletions.  The store's `movePage` violates this: on a two-page
document with one record on page 0, moving page 0 to position 1 reorders the
pages but leaves the record's `pageIndex` at 0, so the record is now anchored
to the other page; App.tsx `handleDrop` on the same input shifts the record to
index 1, where its original page now sits. -/
theorem storeMovePage_loses_anchor :
    (storeMovePage 0 1 ⟨[pageA, pageB], [highlightAnn0]⟩).pages = [pageB, pageA]
    ∧ (storeMovePage 0 1 ⟨[pageA, pageB], [highlightAnn0]⟩).anns = [highlightAnn0]
    ∧ (storeMovePage 0 1 ⟨[pageA, pageB], [highlightAnn0]⟩).pages[highlightAnn0.pageIndex]?
        = some pageB
    ∧ ([pageA, pageB] : List PDFPageData)[highlightAnn0.pageIndex]? = some pageA
    ∧ pageB ≠ pageA
    ∧ (handleDrop 0 1 ⟨[pageA, pageB], [highlightAnn0]⟩).anns.map (fun a => a.pageIndex) = [1]
    ∧ (handleDrop 0 1 ⟨[pageA, pageB], [highlightAnn0]⟩).pages[1]? = some pageA := by
  refine ⟨rfl, rfl, rfl, rfl, ?_, rfl, rfl⟩
  decide

theorem runCreationGesture_one_move (tool : EditTool) (newId : String) (pageIdx : Nat)
    (s c : ℚ × ℚ) (h1 : tool ≠ .freehand) (h2 : tool ≠ .comment) :
    runCreationGesture tool newId pageIdx s [c] = creationOutcome tool newId pageIdx s c := by
  have hid := mkToolAnn_id tool newId pageIdx s
  by_cases ht : (mkToolAnn tool newId pageIdx s).type = .text <;>
    by_cases hz : c.1 - s.1 = 0 ∨ c.2 - s.2 = 0 <;>
      simp [runCreationGesture, handleToolMouseDown, if_neg h1, if_neg h2, hid,
        handleGlobalMouseUpAnns, creationOutcome, creatingRect, ht, hz, List.find?]

theorem runCreationGesture_no_move (tool : EditTool) (newId : String) (pageIdx : Nat)
    (s : ℚ × ℚ) (h1 : tool ≠ .freehand) (h2 : tool ≠ .comment) :
    runCreationGesture tool newId pageIdx s [] = creationOutcome tool newId pageIdx s s := by
  have hid := mkToolAnn_id tool newId pageIdx s
  have hw := mkToolAnn_width tool newId pageIdx s
  have hh := mkToolAnn_height tool newId pageIdx s
  have hx := mkToolAnn_x tool newId pageIdx s
  have hy := mkToolAnn_y tool newId pageIdx s
  by_cases ht : (mkToolAnn tool newId pageIdx s).type = .text <;>
    simp [runCreationGesture, handleToolMouseDown, if_neg h1, if_neg h2, hid, hw, hh, hx, hy,
      handleGlobalMouseUpAnns, creationOutcome, creatingRect, ht, List.find?,
      sub_self, abs_zero, min_self]

/-- C6 amended: a completed App.tsx creation gesture is promoted to a default
size exactly when its width or height is exactly 0 (in particular when the
pointer never moved); any nonzero size, however tiny, is persisted as-is. -/
theorem creation_promotes_exact_zero (tool : EditTool) (newId : String) (pageIdx : Nat)
    (s c : ℚ × ℚ) (h1 : tool ≠ .freehand) (h2 : tool ≠ .comment) :
    runCreationGesture tool newId pageIdx s [c] = creationOutcome tool newId pageIdx s c
    ∧ runCreationGesture tool newId pageIdx s [] = creationOutcome tool newId pageIdx s s :=
  ⟨runCreationGesture_one_move tool newId pageIdx s c h1 h2,
    runCreationGesture_no_move tool newId pageIdx s h1 h2⟩

/-- C6 witness: the theorem applied to a concrete rect gesture (one that drags
to a proper size, and one that never moves and is promoted). -/
theorem creation_promotes_witness :
    runCreationGesture .rect ("wx-1") 0 (10, 10) [(30, 20)]
        = creationOutcome .rect ("wx-1") 0 (10, 10) (30, 20)
    ∧ runCreationGesture .rect ("wx-1") 0 (10, 10) []
        = creationOutcome .rect ("wx-1") 0 (10, 10) (10, 10) :=
  creation_promotes_exact_zero .rect ("wx-1") 0 (10, 10) (30, 20) (by decide) (by decide)

/-- C6 counterexample: a drag-to-create gesture released at half a percent of
width and height persists the 1/2 x 1/2 box untouched; it is neither promoted
to a default size nor kept at any positive minimum such as the 1 percent
resize threshold. -/
theorem creation_near_zero_persists :
    (runCreationGesture .rect ("cx-1") 0 (10, 10) [(21/2, 21/2)]).map (fun a => (a.width, a.height))
      = [(some (1/2), some (1/2))]
    ∧ ¬ (1 ≤ (1/2 : ℚ)) := by
  constructor
  · have habs : |(21/2 : ℚ) - 10| = 1/2 := by
      rw [show (21/2 : ℚ) - 10 = 1/2 by norm_num]
      rw [abs_of_pos (by norm_num)]
    rw [runCreationGesture_one_move .rect ("cx-1") 0 (10, 10) (21/2, 21/2)
      (by decide) (by decide)]
    norm_num [creationOutcome, creatingRect, mkToolAnn, habs]
  · norm_num

/-- C7: resizing with the north-west handle moves the position by the pointer
delta and changes the size by its negation, clamped so neither dimension drops
below 1 (one percent of the page) and the box never inverts; the Editor
variant commits the same update when above the threshold and discards the
axis update otherwise, so committed sizes also never drop below 1. -/
theorem resize_nw_spec (x y w h dx dy : ℚ) :
    resizeUpdate .nw ⟨x, y, w, h⟩ dx dy = ⟨x + dx, y + dy, max 1 (w - dx), max 1 (h - dy)⟩
    ∧ 1 ≤ (resizeUpdate .nw ⟨x, y, w, h⟩ dx dy).w
    ∧ 1 ≤ (resizeUpdate .nw ⟨x, y, w, h⟩ dx dy).h
    ∧ (1 < w - dx → 1 < h - dy →
        editorResizeUpdate .nw ⟨x, y, w, h⟩ dx dy = ⟨x + dx, y + dy, w - dx, h - dy⟩)
    ∧ (1 < (editorResizeUpdate .nw ⟨x, y, w, h⟩ dx dy).w
        ∨ (editorResizeUpdate .nw ⟨x, y, w, h⟩ dx dy).w = w)
    ∧ (1 < (editorResizeUpdate .nw ⟨x, y, w, h⟩ dx dy).h
        ∨ (editorResizeUpdate .nw ⟨x, y, w, h⟩ dx dy).h = h) := by
  refine ⟨rfl, ?_, ?_, ?_, ?_, ?_⟩
  · simp [resizeUpdate, Handle.hasW, Handle.hasN, Handle.hasE, Handle.hasS]
  · simp [resizeUpdate, Handle.hasW, Handle.hasN, Handle.hasE, Handle.hasS]
  · intro h1 h2
    simp only [editorResizeUpdate, Handle.hasW, Handle.hasN, Handle.hasE, Handle.hasS,
      if_true, if_pos h1, if_pos h2]
  · simp only [editorResizeUpdate, Handle.hasW, Handle.hasN, Handle.hasE, Handle.hasS, if_true]
    split_ifs <;> simp_all
  · simp only [editorResizeUpdate, Handle.hasW, Handle.hasN, Handle.hasE, Handle.hasS, if_true]
    split_ifs <;> simp_all

/-- C7 witness: the theorem applied at a concrete rectangle and delta. -/
theorem resize_nw_spec_witness :
    resizeUpdate .nw ⟨10, 10, 20, 20⟩ 2 3
        = ⟨10 + 2, 10 + 3, max 1 (20 - 2), max 1 (20 - 3)⟩
    ∧ 1 ≤ (resizeUpdate .nw ⟨10, 10, 20, 20⟩ 2 3).w
    ∧ 1 ≤ (resizeUpdate .nw ⟨10, 10, 20, 20⟩ 2 3).h
    ∧ ((1 : ℚ) < 20 - 2 → (1 : ℚ) < 20 - 3 →
        editorResizeUpdate .nw ⟨10, 10, 20, 20⟩ 2 3 = ⟨10 + 2, 10 + 3, 20 - 2, 20 - 3⟩)
    ∧ (1 < (editorResizeUpdate .nw ⟨10, 10, 20, 20⟩ 2 3).w
        ∨ (editorResizeUpdate .nw ⟨10, 10, 20, 20⟩ 2 3).w = 20)
    ∧ (1 < (editorResizeUpdate .nw ⟨10, 10, 20, 20⟩ 2 3).h
        ∨ (editorResizeUpdate .nw ⟨10, 10, 20, 20⟩ 2 3).h = 20) :=
  resize_nw_spec 10 10 20 20 2 3

/-- C2: in the store's `exportPDF`, each record renders inside its own
try/catch, so the output always has one entry per page and equals the export of
the document with the failing records removed and everything else rendered
normally; App.tsx `handleSavePDF` has no per-record handler and aborts
(see the counterexample). -/
theorem exportPDF_isolates_failures (renderOk : Ann → Bool) (env : RenderEnv)
    (pages : List PDFPageData) (anns : List Ann) :
    (exportPDFModel renderOk env pages anns).length = pages.length
    ∧ exportPDFModel renderOk env pages anns
        = exportPDFModel renderOkAll env pages (anns.filter renderOk) :=
  ⟨exportPagesGo_length renderOk env anns 0 pages,
    exportPagesGo_filter renderOk env anns 0 pages⟩

/-- C2 counterexample: with one good record and one whose rendering throws,
App.tsx `handleSavePDF` produces no output document at all, while the same
oracle succeeds under `handleSavePDF` when nothing throws and the store's
`exportPDF` still emits the good record's drawing op. -/
theorem handleSavePDF_aborts_on_failure :
    handleSavePDFModel renderOkExceptBad envOk [pageA] [highlightAnn0, badImageAnn] = .error ()
    ∧ (handleSavePDFModel renderOkAll envOk [pageA] [highlightAnn0, badImageAnn]).isOk = true
    ∧ (exportPDFModel renderOkExceptBad envOk [pageA] [highlightAnn0, badImageAnn]).map
        (fun pr => pr.2.length) = [1] :=
  ⟨rfl, rfl, rfl⟩

/-- C4: App.tsx `handleSavePDF` skips every `ocr_text` record, so its output is
identical with or without them; the store's `exportPDF` however rasterizes
`ocr_text` records like text and draws the result (see the counterexample). -/
theorem handleSavePDF_ignores_ocr (renderOk : Ann → Bool) (env : RenderEnv)
    (pages : List PDFPageData) (anns : List Ann) :
    handleSavePDFModel renderOk env pages anns
      = handleSavePDFModel renderOk env pages (anns.filter (fun a => a.type ≠ .ocr_text)) :=
  savePagesGo_ocr_filter renderOk env anns 0 pages

/-- C4 counterexample: an `ocr_text` record makes the store's `exportPDF` emit
a drawing op (the rasterized content image), so the baked page differs from the
page exported without it. -/
theorem exportPDF_draws_ocr_marks :
    (exportPDFModel renderOkAll envOk [pageA] [ocrWordAnn]).map (fun pr => pr.2.length) = [1]
    ∧ (exportPDFModel renderOkAll envOk [pageA] []).map (fun pr => pr.2.length) = [0]
    ∧ exportPDFModel renderOkAll envOk [pageA] [ocrWordAnn]
        ≠ exportPDFModel renderOkAll envOk [pageA] [] := by
  refine ⟨rfl, rfl, fun hcontra => ?_⟩
  have h2 := congrArg (List.map (fun pr : PDFPageData × List DrawOp => pr.2.length)) hcontra
  rw [show (exportPDFModel renderOkAll envOk [pageA] [ocrWordAnn]).map
        (fun pr => pr.2.length) = [1] from rfl,
    show (exportPDFModel renderOkAll envOk [pageA] []).map
        (fun pr => pr.2.length) = [0] from rfl] at h2
  exact absurd h2 (by decide)

/-- C5: in App.tsx `handleSavePDF`, a highlight is drawn as a single filled
rectangle with no border and opacity defaulting to 0.4, while a `rect` is
drawn filled with no border when a fill color is present and with a stroked
border and no fill otherwise: fill and border are never combined. -/
theorem save_box_spec (env : RenderEnv) (a : Ann) :
    (a.type = .highlight →
      (saveAnnOps env a).map (fun op => (op.hasFill, op.hasBorder, op.rectOpacity))
        = [(true, false, jsOrQ a.opacity (2/5))])
    ∧ (a.type = .rect → jsTruthy a.fill = true →
      (saveAnnOps env a).map (fun op => (op.hasFill, op.hasBorder)) = [(true, false)])
    ∧ (a.type = .rect → jsTruthy a.fill = false →
      (saveAnnOps env a).map (fun op => (op.hasFill, op.hasBorder)) = [(false, true)]) := by
  obtain ⟨i, pi, ty, xx, yy, ww, hh, ct, col, pts, fs, sw, op, fl, im, vert⟩ := a
  refine ⟨fun h => ?_, fun h hf => ?_, fun h hf => ?_⟩ <;> obtain rfl : ty = _ := h
  · simp [saveAnnOps, DrawOp.hasFill, DrawOp.hasBorder, DrawOp.rectOpacity]
  · simp [saveAnnOps, hf, DrawOp.hasFill, DrawOp.hasBorder]
  · simp only [saveAnnOps, hf, Bool.false_eq_true, if_false, List.map_cons, List.map_nil,
      DrawOp.hasFill, DrawOp.hasBorder, Option.isSome_none, Option.isSome_some,
      Bool.true_and, Bool.false_and]
    have : (jsOrQ sw 2) != 0 := bne_iff_ne.mpr (jsOrQ_ne_zero sw 2 (by norm_num))
    simp [this]

/-- C5 witness: the theorem applied to a concrete highlight, a whiteout (filled
rect), and a plain border rect. -/
theorem save_box_spec_witness :
    highlightAnn0.type = .highlight
    ∧ (saveAnnOps envOk highlightAnn0).map (fun op => (op.hasFill, op.hasBorder, op.rectOpacity))
        = [(true, false, jsOrQ highlightAnn0.opacity (2/5))]
    ∧ whiteoutAnn.type = .rect ∧ jsTruthy whiteoutAnn.fill = true
    ∧ (saveAnnOps envOk whiteoutAnn).map (fun op => (op.hasFill, op.hasBorder)) = [(true, false)]
    ∧ borderRect.type = .rect ∧ jsTruthy borderRect.fill = false
    ∧ (saveAnnOps envOk borderRect).map (fun op => (op.hasFill, op.hasBorder)) = [(false, true)] :=
  ⟨rfl, (save_box_spec envOk highlightAnn0).1 rfl, rfl, rfl,
    (save_box_spec envOk whiteoutAnn).2.1 rfl rfl, rfl, rfl,
    (save_box_spec envOk borderRect).2.2 rfl rfl⟩

/-- C5 counterexample: in the store's `exportPDF`, a filled `rect` (whiteout)
is drawn with both a fill and a stroked border, and a highlight's opacity
defaults to 1 rather than 0.4. -/
theorem exportPDF_box_mismatch :
    (exportAnnOps envOk whiteoutAnn).map (fun op => (op.hasFill, op.hasBorder)) = [(true, true)]
    ∧ (exportAnnOps envOk highlightAnn0).map (fun op => op.rectOpacity) = [1]
    ∧ jsOrQ highlightAnn0.opacity (2/5) = 2/5
    ∧ (2/5 : ℚ) ≠ 1 := by
  refine ⟨?_, rfl, rfl, by norm_num⟩
  simp [exportAnnOps, whiteoutAnn, envOk, jsTruthy, DrawOp.hasFill, DrawOp.hasBorder]
  exact jsOrQ_ne_zero _ 2 (by norm_num)

/-- C8: starting from any normalized rotation, four rotations in the same
direction return the rotation to its starting value, and a single rotation of
any stored value always lands in [0, 360). -/
theorem rotatePage_spec (r : Int) (d : RotDir) :
    (0 ≤ r → r < 360 →
      updatePageRotation1 d (updatePageRotation1 d
        (updatePageRotation1 d (updatePageRotation1 d r))) = r)
    ∧ 0 ≤ updatePageRotation1 d r ∧ updatePageRotation1 d r < 360 := by
  constructor
  · intro h0 h1
    have nn : ∀ s : Int, 0 ≤ (s + rotDelta d + 360) % 360 := fun s =>
      Int.emod_nonneg _ (by omega)
    have lt : ∀ s : Int, (s + rotDelta d + 360) % 360 < 360 := fun s =>
      Int.emod_lt_of_pos _ (by omega)
    rw [updatePageRotation1_eq_emod d r h0 h1,
      updatePageRotation1_eq_emod d _ (nn r) (lt r),
      updatePageRotation1_eq_emod d _ (nn _) (lt _),
      updatePageRotation1_eq_emod d _ (nn _) (lt _)]
    cases d <;> simp only [rotDelta] <;> omega
  · obtain ⟨hb1, hb2⟩ := tmod360_bounds (r + rotDelta d)
    constructor <;> (simp only [updatePageRotation1]; split <;> omega)

/-- C8 witness: the theorem applied at rotation 90, direction left. -/
theorem rotatePage_spec_witness :
    (0 : Int) ≤ 90 ∧ (90 : Int) < 360
    ∧ updatePageRotation1 .left (updatePageRotation1 .left
        (updatePageRotation1 .left (updatePageRotation1 .left 90))) = 90
    ∧ 0 ≤ updatePageRotation1 .left 90 ∧ updatePageRotation1 .left 90 < 360 :=
  ⟨by decide, by decide, (rotatePage_spec 90 .left).1 (by decide) (by decide),
    (rotatePage_spec 90 .left).2.1, (rotatePage_spec 90 .left).2.2⟩

/-- C3: on a multi-page document, deleting page `idx` removes exactly the
records on that page, decrements the `pageIndex` of records on later pages and
leaves every other record unchanged; App.tsx `handleDeletePage` rejects
deleting the last remaining page unchanged, while the store's `deletePage`
performs no such check (see the counterexample). -/
theorem deletePage_spec (pages : List PDFPageData) (anns : List Ann) (idx : Nat) :
    (1 < pages.length → idx < pages.length →
      handleDeletePage ⟨pages, anns⟩ idx true
        = ⟨pages.eraseIdx idx,
            anns.filterMap (fun a =>
              if a.pageIndex = idx then none
              else if idx < a.pageIndex then some { a with pageIndex := a.pageIndex - 1 }
              else some a)⟩)
    ∧ (pages.length ≤ 1 → handleDeletePage ⟨pages, anns⟩ idx true = ⟨pages, anns⟩)
    ∧ storeDeletePageAnns idx anns
        = anns.filterMap (fun a =>
            if a.pageIndex = idx then none
            else if idx < a.pageIndex then some { a with pageIndex := a.pageIndex - 1 }
            else some a)
    ∧ (storeDeletePage idx ⟨pages, anns⟩).pages = pages.eraseIdx idx := by
  refine ⟨?_, ?_, storeDeletePageAnns_eq_filterMap idx anns, rfl⟩
  · intro h1 h2
    simp only [handleDeletePage]
    rw [if_neg (by omega), if_neg (by omega), if_neg (by simp)]
    rw [storeDeletePageAnns_eq_filterMap]
  · intro h1
    simp [handleDeletePage, h1]

/-- C3 witness: the theorem applied to a two-page document with one record. -/
theorem deletePage_spec_witness :
    1 < ([pageA, pageB] : List PDFPageData).length
    ∧ 0 < ([pageA, pageB] : List PDFPageData).length
    ∧ handleDeletePage ⟨[pageA, pageB], [highlightAnn0]⟩ 0 true
        = ⟨[pageA, pageB].eraseIdx 0,
            [highlightAnn0].filterMap (fun a =>
              if a.pageIndex = 0 then none
              else if 0 < a.pageIndex then some { a with pageIndex := a.pageIndex - 1 }
              else some a)⟩ :=
  ⟨by decide, by decide,
    (deletePage_spec [pageA, pageB] [highlightAnn0] 0).1 (by decide) (by decide)⟩

/-- C3 counterexample: the store's `deletePage`, called with only one page
remaining, empties the page list (and the record list) instead of rejecting
the operation and leaving both unchanged. -/
theorem storeDeletePage_deletes_last :
    (storeDeletePage 0 ⟨[pageA], [highlightAnn0]⟩).pages = []
    ∧ (storeDeletePage 0 ⟨[pageA], [highlightAnn0]⟩).anns = []
    ∧ ([] : List PDFPageData) ≠ [pageA] := by
  exact ⟨rfl, rfl, by decide⟩

/-- C9: the on-screen SVG path and both export pipelines' freehand output are
computed from the points sequence, color, stroke width and opacity alone; a
move gesture updates only `x` and `y` and therefore changes none of them. -/
theorem freehand_ignores_position (a : Ann) (dx dy scale : ℚ) (env : RenderEnv) :
    freehandView scale (moveUpdate a dx dy) = freehandView scale a
    ∧ (moveUpdate a dx dy).points = a.points
    ∧ (a.type = .freehand →
        saveAnnOps env (moveUpdate a dx dy) = saveAnnOps env a
        ∧ exportAnnOps env (moveUpdate a dx dy) = exportAnnOps env a) := by
  refine ⟨rfl, rfl, ?_⟩
  intro h
  obtain ⟨i, pi, ty, xx, yy, ww, hh, ct, col, pts, fs, sw, op, fl, im, vert⟩ := a
  obtain rfl : ty = .freehand := h
  exact ⟨rfl, rfl⟩

/-- C9 witness: the theorem applied to a concrete freehand record. -/
theorem freehand_ignores_position_witness :
    freehandView 1 (moveUpdate freehandFix 1 2) = freehandView 1 freehandFix
    ∧ (moveUpdate freehandFix 1 2).points = freehandFix.points
    ∧ (saveAnnOps envOk (moveUpdate freehandFix 1 2) = saveAnnOps envOk freehandFix
        ∧ exportAnnOps envOk (moveUpdate freehandFix 1 2) = exportAnnOps envOk freehandFix) :=
  ⟨(freehand_ignores_position freehandFix 1 2 1 envOk).1,
    (freehand_ignores_position freehandFix 1 2 1 envOk).2.1,
    (freehand_ignores_position freehandFix 1 2 1 envOk).2.2 rfl⟩

/-- C10: placing a comment commits it immediately on pointer-down with zero
width and height, selects it, clears the tool, and enters no creation gesture;
the zero size survives the following pointer-up untouched, unlike the box tools
which enter the creating state. -/
theorem comment_immediate_commit (newId : String) (pageIdx : Nat) (coords : ℚ × ℚ)
    (anns : List Ann) (sel : Option String) :
    (handleToolMouseDown .comment newId pageIdx coords anns sel).anns
        = anns ++ [{ mkToolAnn .comment newId pageIdx coords with width := some 0, height := some 0 }]
    ∧ (mkToolAnn .comment newId pageIdx coords).width = some 0
    ∧ (mkToolAnn .comment newId pageIdx coords).height = some 0
    ∧ (handleToolMouseDown .comment newId pageIdx coords anns sel).selectedId = some newId
    ∧ (handleToolMouseDown .comment newId pageIdx coords anns sel).activeTool = none
    ∧ (handleToolMouseDown .comment newId pageIdx coords anns sel).inter = .idle
    ∧ handleGlobalMouseUpAnns .idle pageIdx none [] newId
        (handleToolMouseDown .comment newId pageIdx coords anns sel).anns
        = (handleToolMouseDown .comment newId pageIdx coords anns sel).anns
    ∧ (handleToolMouseDown .rect newId pageIdx coords anns sel).inter = .creating
    ∧ (handleToolMouseDown .highlight newId pageIdx coords anns sel).inter = .creating :=
  ⟨rfl, rfl, rfl, rfl, rfl, rfl, rfl, rfl, rfl⟩

end EasyPDF
